import Mathlib

/-!
Verification of the feed-processing bot engine in `src/main.py`.

Shallow embedding conventions:
* Python strings are modelled as `List Char` (`Text`); `None`-able strings as
  `Option Text`; Python truthiness of a string is emptiness.
* Python `str.lower` is modelled per character by `Char.toLower` (exact on the
  ASCII range used by the code; Hangul has no case).
* Floating ratio comparisons `k/t > 0.3` and `e/t > 0.7` are modelled exactly
  over the rationals as `10*k > 3*t` and `10*e > 7*t`.
* The external world (Selenium driver, Gemini backend, `random`) is passed in
  as explicit oracle parameters; machine integers do not occur.
-/

set_option maxHeartbeats 1000000

abbrev Text := List Char

abbrev TweetId := Nat

/-- Detected response language (`detect_language` returns one of two values). -/
inductive Lang
  | korean
  | english
deriving DecidableEq

/-- Per-character lowercasing, modelling Python `str.lower` on the character
ranges this repository manipulates (ASCII letters; Hangul is caseless). -/
def lower (t : Text) : Text := t.map Char.toLower

/-- `startsWith s p` holds when `p` is an initial segment of `s`. -/
def startsWith : Text → Text → Bool
  | _, [] => true
  | [], _ :: _ => false
  | a :: s, b :: p => a == b && startsWith s p

/-- `hasSub s p` models the Python substring test `p in s`. -/
def hasSub : Text → Text → Bool
  | [], p => p.isEmpty
  | a :: s, p => startsWith (a :: s) p || hasSub s p

/-- `joinSep sep l` models Python `sep.join(l)`. -/
def joinSep (sep : Text) : List Text → Text
  | [] => []
  | [x] => x
  | x :: y :: rest => x ++ sep ++ joinSep sep (y :: rest)

theorem startsWith_iff (p : Text) : ∀ s : Text, startsWith s p = true ↔ ∃ r, s = p ++ r := by
  induction p with
  | nil =>
    intro s
    simp [startsWith]
  | cons b p ih =>
    intro s
    cases s with
    | nil =>
      simp [startsWith]
    | cons a s =>
      simp only [startsWith, Bool.and_eq_true, beq_iff_eq, ih]
      constructor
      · rintro ⟨rfl, r, rfl⟩
        exact ⟨r, rfl⟩
      · rintro ⟨r, h⟩
        rw [List.cons_append] at h
        injection h with h1 h2
        exact ⟨h1, r, h2⟩

theorem hasSub_iff (p : Text) : ∀ s : Text, hasSub s p = true ↔ ∃ a b, s = a ++ p ++ b := by
  intro s
  induction s with
  | nil =>
    simp only [hasSub, List.isEmpty_iff]
    constructor
    · rintro rfl
      exact ⟨[], [], rfl⟩
    · rintro ⟨a, b, h⟩
      rcases List.append_eq_nil.mp h.symm with ⟨h1, h2⟩
      rcases List.append_eq_nil.mp h1 with ⟨-, h3⟩
      exact h3
  | cons c s ih =>
    simp only [hasSub, Bool.or_eq_true, startsWith_iff, ih]
    constructor
    · rintro (⟨r, hr⟩ | ⟨a, b, hab⟩)
      · exact ⟨[], r, by simp [hr]⟩
      · exact ⟨c :: a, b, by simp [hab]⟩
    · rintro ⟨a, b, hab⟩
      cases a with
      | nil =>
        left
        exact ⟨b, by simpa using hab⟩
      | cons x a =>
        right
        rw [List.cons_append, List.cons_append] at hab
        injection hab with h1 h2
        exact ⟨a, b, by simp [h2]⟩

theorem hasSub_of_parts (s p a b : Text) (h : s = a ++ p ++ b) : hasSub s p = true :=
  (hasSub_iff p s).mpr ⟨a, b, h⟩

theorem hasSub_append_right (s u p : Text) (h : hasSub s p = true) :
    hasSub (s ++ u) p = true := by
  rcases (hasSub_iff p s).mp h with ⟨a, b, rfl⟩
  exact hasSub_of_parts _ p a (b ++ u) (by simp)

theorem hasSub_nil (s : Text) : hasSub s [] = true :=
  hasSub_of_parts s [] [] s (by simp)

theorem joinSep_mem_parts (sep : Text) :
    ∀ (l : List Text) (kw : Text), kw ∈ l → ∃ a b, joinSep sep l = a ++ kw ++ b := by
  intro l
  induction l with
  | nil => intro kw h; exact absurd h (List.not_mem_nil kw)
  | cons x rest ih =>
    intro kw h
    cases rest with
    | nil =>
      rcases List.mem_singleton.mp h with rfl
      exact ⟨[], [], by simp [joinSep]⟩
    | cons y rest2 =>
      rcases List.mem_cons.mp h with rfl | hmem
      · exact ⟨[], sep ++ joinSep sep (y :: rest2), by simp [joinSep]⟩
      · rcases ih kw hmem with ⟨a, b, hab⟩
        refine ⟨x ++ sep ++ a, b, ?_⟩
        simp [joinSep, hab]

theorem mem_joinSep_sub (sep : Text) :
    ∀ (l : List Text) (c : Char), c ∈ joinSep sep l → c ∈ sep ∨ ∃ x ∈ l, c ∈ x := by
  intro l
  induction l with
  | nil => intro c h; exact absurd h (List.not_mem_nil c)
  | cons x rest ih =>
    intro c h
    cases rest with
    | nil =>
      right
      exact ⟨x, List.mem_singleton.mpr rfl, by simpa [joinSep] using h⟩
    | cons y rest2 =>
      simp only [joinSep, List.append_assoc, List.mem_append] at h
      rcases h with hx | hsep | hrest
      · exact Or.inr ⟨x, List.mem_cons_self x _, hx⟩
      · exact Or.inl hsep
      · rcases ih c hrest with hs | ⟨z, hz, hcz⟩
        · exact Or.inl hs
        · exact Or.inr ⟨z, List.mem_cons_of_mem x hz, hcz⟩

theorem lower_append (a b : Text) : lower (a ++ b) = lower a ++ lower b := by
  simp [lower]

/-- Whitespace class: Python's `\s` / `str.strip`, over the ASCII whitespace
characters (the repository's texts use no exotic Unicode whitespace). -/
def isSpaceChar (c : Char) : Bool :=
  c = ' ' || c = '\t' || c = '\n' || c = '\r' || c = '\x0b' || c = '\x0c'

/-- The character class `[a-zA-Z]` counted as English by `detect_language`. -/
def isEnglishLetter (c : Char) : Bool :=
  ('a' ≤ c && c ≤ 'z') || ('A' ≤ c && c ≤ 'Z')

/-- The character class `[가-힣]` (Hangul syllables U+AC00..U+D7A3) counted as
Korean by `detect_language`; also the non-ASCII half of `clean_text`'s charset. -/
def isHangulSyllable (c : Char) : Bool :=
  0xAC00 ≤ c.toNat && c.toNat ≤ 0xD7A3

def isDigitChar (c : Char) : Bool := '0' ≤ c && c ≤ '9'

/-- Python's `\w`, modelled over the character classes the repository's two
scripts use: ASCII letters, digits, underscore, and Hangul syllables. -/
def isWordChar (c : Char) : Bool :=
  isEnglishLetter c || isDigitChar c || c == '_' || isHangulSyllable c

def notSpace (c : Char) : Bool := !isSpaceChar c

/-- `chopLead s p` returns `some r` when `s = p ++ r`. -/
def chopLead : Text → Text → Option Text
  | s, [] => some s
  | [], _ :: _ => none
  | a :: s, b :: p => if a = b then chopLead s p else none

/-- One alternative of the regex `pre` + one-or-more chars of class `cls`
(greedy, nothing follows, so no backtracking): on success returns the text
after the match. -/
def altAt (s : Text) (pre : Text) (cls : Char → Bool) : Option Text :=
  match chopLead s pre with
  | none => none
  | some r =>
    match r.takeWhile cls with
    | [] => none
    | _ :: _ => some (r.dropWhile cls)

/-- A match of `http\S+|www\S+|@\w+|#\w+` anchored at the head of `s`,
alternatives tried in pattern order; returns the text after the match. -/
def matchAt (s : Text) : Option Text :=
  match altAt s "http".data notSpace with
  | some r => some r
  | none =>
    match altAt s "www".data notSpace with
    | some r => some r
    | none =>
      match altAt s "@".data isWordChar with
      | some r => some r
      | none => altAt s "#".data isWordChar

/-- Left-to-right scan of `re.sub(pattern, '', text)`: at each position take the
leftmost match if any, else keep the character.  `fuel` bounds the recursion;
every step consumes at least one character, so fuel `s.length` always suffices. -/
def stripUrlsAux : Nat → Text → Text
  | 0, s => s
  | _ + 1, [] => []
  | fuel + 1, c :: rest =>
    match matchAt (c :: rest) with
    | some r => stripUrlsAux fuel r
    | none => c :: stripUrlsAux fuel rest

/-- `re.sub(r'http\S+|www\S+|@\w+|#\w+', '', text)` (main.py line 105). -/
def stripUrls (s : Text) : Text := stripUrlsAux s.length s

/-- `re.sub(r'[^\w\s]', '', text)` (main.py line 106): keep word chars and
whitespace. -/
def stripPunct (s : Text) : Text := s.filter (fun c => isWordChar c || isSpaceChar c)

/-- The local `clean_text` variable computed inside `detect_language`. -/
def cleanedText (text : Text) : Text := stripPunct (stripUrls text)

def koreanCount (text : Text) : Nat := ((cleanedText text).filter isHangulSyllable).length

def englishCount (text : Text) : Nat := ((cleanedText text).filter isEnglishLetter).length

/-- `detect_language` (main.py lines 101-117).  The float comparisons
`korean/total > 0.3` and `english/total > 0.7` are modelled exactly as
`10*k > 3*t` and `10*e > 7*t`. -/
def detect_language (text : Text) : Lang :=
  if text = [] then Lang.korean
  else
    let k := koreanCount text
    let e := englishCount text
    let total := k + e
    if total = 0 then Lang.korean
    else if 3 * total < 10 * k then Lang.korean
    else if 7 * total < 10 * e then Lang.english
    else if e ≤ k then Lang.korean else Lang.english

/-- The supported charset of `clean_text`: ASCII (`ord(char) < 128`) plus the
whole Hangul-syllables block (`0xAC00 <= ord(char) <= 0xD7A3`). -/
def supportedChar (c : Char) : Bool := c.toNat < 128 || isHangulSyllable c

/-- Python `str.strip()`: drop whitespace from both ends. -/
def pyStrip (t : Text) : Text :=
  ((t.dropWhile isSpaceChar).reverse.dropWhile isSpaceChar).reverse

/-- `clean_text` (main.py lines 447-451). -/
def clean_text (t : Text) : Text :=
  if t = [] then "...".data
  else
    let s := pyStrip (t.filter supportedChar)
    if s = [] then "...".data else s

/-- `ensure_keywords_included` (main.py lines 327-339). -/
def ensure_keywords_included (required : List Text) (text : Text) (lang : Lang) : Text :=
  if required = [] then text
  else
    let missing := required.filter (fun kw => !hasSub (lower text) (lower kw))
    if missing = [] then text
    else
      match lang with
      | Lang.english =>
        text ++ " Also, talking about ".data ++ joinSep ", ".data missing ++ ".".data
      | Lang.korean => text ++ " ".data ++ joinSep " ".data missing

/-- `generate_ai_response` (main.py lines 475-489).  `backend` is the value
returned by `_generate_with_retry` for the built prompt (`None` on failure);
the prompt itself does not influence the post-processing. -/
def generate_ai_response (required : List Text) (backend : Option Text)
    (tweet_text : Text) : Option Text :=
  let lang := detect_language tweet_text
  match backend with
  | none => none
  | some ai_reply =>
    if ai_reply = [] then none
    else
      let body := if lang = Lang.korean then clean_text ai_reply else pyStrip ai_reply
      some (ensure_keywords_included required body lang)

/-- `generate_quote_text` (main.py lines 491-506); same post-processing as
`generate_ai_response`, only the prompt framing differs. -/
def generate_quote_text (required : List Text) (backend : Option Text)
    (tweet_text : Text) : Option Text :=
  let lang := detect_language tweet_text
  match backend with
  | none => none
  | some quote_text =>
    if quote_text = [] then none
    else
      let body := if lang = Lang.korean then clean_text quote_text else pyStrip quote_text
      some (ensure_keywords_included required body lang)

/-- `contains_keyword` (main.py lines 323-325):
`keyword.lower() in tweet_text.lower() if tweet_text and keyword else False`. -/
def contains_keyword (tweet_text keyword : Option Text) : Bool :=
  match tweet_text, keyword with
  | some t, some k =>
    if t = [] then false
    else if k = [] then false
    else hasSub (lower t) (lower k)
  | _, _ => false

/-- Python truthiness of an optional string: `None` and `""` are falsy. -/
def pyTruthy : Option Text → Bool
  | none => false
  | some t => !t.isEmpty

/-- Result of one interactive action attempt (`reply_to_tweet`'s return). -/
inductive Outcome
  | SUCCESS
  | PREP_FAILED
  | POST_FAILED
deriving DecidableEq

/-- `reply_to_tweet` (main.py lines 557-599).  `tid`/`ttext` are the values of
`get_tweet_id`/`get_tweet_text` (`None` on failure); `backend` is the Gemini
reply for the built prompt; `postOk` is whether the submitted reply box
disappears within the bounded wait (line 585).  UI exceptions before
submission are part of the `PREP_FAILED` paths and are not modelled
separately. -/
def reply_to_tweet (required : List Text) (searchMode : Bool) (currentKw : Option Text)
    (botStop : Bool) (backend : Option Text) (tid : Option TweetId) (ttext : Option Text)
    (postOk : Bool) : Outcome :=
  match tid with
  | none => Outcome.PREP_FAILED
  | some _ =>
    match ttext with
    | none => Outcome.PREP_FAILED
    | some txt =>
      if txt = [] then Outcome.PREP_FAILED
      else if searchMode && pyTruthy currentKw && !contains_keyword (some txt) currentKw then
        Outcome.PREP_FAILED
      else
        let reply := generate_ai_response required backend txt
        if !pyTruthy reply || botStop then Outcome.PREP_FAILED
        else if postOk then Outcome.SUCCESS else Outcome.POST_FAILED

/-- `quote_tweet` (main.py lines 524-555).  `tidInner` is `get_tweet_id` as
re-read inside the method; `postOk` is whether the quote submission confirms
(exceptions return `False`). -/
def quote_tweet (required : List Text) (botStop : Bool) (backend : Option Text)
    (ttext : Text) (tidInner : Option TweetId) (postOk : Bool) : Bool :=
  let q := generate_quote_text required backend ttext
  if !pyTruthy q || botStop then false
  else
    match tidInner with
    | none => false
    | some _ => postOk

/-- The two interactive actions shuffled at main.py line 645. -/
inductive ActionKind
  | reply
  | quote
deriving DecidableEq

/-- External-world responses consumed while processing one item: the shuffled
action order, and the oracles for the first action's inner reads, backend call
and submission.  The second action's own oracles are omitted: its outcome is
discarded by the loop and does not affect the recorded state. -/
structure ItemEnv where
  firstAction : ActionKind
  replyTid : Option TweetId
  replyBackend : Option Text
  replyPostOk : Bool
  quoteBackend : Option Text
  quoteTidInner : Option TweetId
  quotePostOk : Bool

/-- Observable result of the per-item block of `monitor_feed`. -/
structure ItemResult where
  processed : List TweetId
  primaryAttempted : Bool
  secondaryAttempted : Bool
deriving DecidableEq

/-- The `first_action_success` flag of main.py lines 649-660. -/
def firstActionOk (required : List Text) (searchMode : Bool) (currentKw : Option Text)
    (botStop : Bool) (ttext : Option Text) (env : ItemEnv) : Bool :=
  match env.firstAction with
  | ActionKind.reply =>
    reply_to_tweet required searchMode currentKw botStop env.replyBackend env.replyTid
        ttext env.replyPostOk == Outcome.SUCCESS
  | ActionKind.quote =>
    match ttext with
    | none => false
    | some t =>
      if t = [] then false
      else quote_tweet required botStop env.quoteBackend t env.quoteTidInner env.quotePostOk

/-- The per-item body of `monitor_feed` (main.py lines 637-687): skip items
with unreadable ids or ids already processed; otherwise run the first action,
run the second only if the first succeeded, and record the id in
`processed_tweets` in either case.  `processed` models the `processed_tweets`
set as its insertion-ordered list of distinct ids. -/
def processItem (required : List Text) (searchMode : Bool) (currentKw : Option Text)
    (botStop : Bool) (processed : List TweetId) (tid : Option TweetId) (ttext : Option Text)
    (env : ItemEnv) : ItemResult :=
  match tid with
  | none => ⟨processed, false, false⟩
  | some tweetId =>
    if tweetId ∈ processed then ⟨processed, false, false⟩
    else if firstActionOk required searchMode currentKw botStop ttext env then
      ⟨processed ++ [tweetId], true, true⟩
    else ⟨processed ++ [tweetId], true, false⟩

/-- End-of-cycle retention bound (main.py lines 699-701):
`if len(processed_tweets) > 300: processed_tweets = set(list(processed_tweets)[-300:])`.
Python sets are unordered (salted string hashing), so `list(...)` yields an
arbitrary enumeration of the set; `enumeration` is that list and the result
keeps its last 300 entries. -/
def truncate_processed (enumeration : List TweetId) : List TweetId :=
  if 300 < enumeration.length then enumeration.drop (enumeration.length - 300)
  else enumeration

/-- `switch_to_next_api_key` (main.py lines 86-99): returns the new active
index, whether `bot_should_stop` was set, and the method's boolean result. -/
def switch_to_next_api_key (numKeys idx : Nat) : Nat × Bool × Bool :=
  if numKeys ≤ 1 then (idx, true, false)
  else ((idx + 1) % numKeys, false, true)

/-- The index rotation performed by `switch_to_next_api_key`. -/
def rotateIdx (numKeys idx : Nat) : Nat := (switch_to_next_api_key numKeys idx).1

/-- Outcome of one backend generation attempt, with the code's critical /
non-critical classification of the raised error (main.py line 463). -/
inductive AttemptResult
  | ok (t : Text)
  | err (critical : Bool)

/-- Observable result of `_generate_with_retry`: returned text, final
`bot_should_stop`, final active index, and number of backend attempts made. -/
structure GenResult where
  text : Option Text
  stop : Bool
  idx : Nat
  attempts : Nat

/-- The `for _ in range(len(self.gemini_api_keys))` loop of
`_generate_with_retry` (main.py lines 453-473).  `oracle n` is the result of
the `(n+1)`-st backend attempt; `fuel` is the remaining loop iterations
(initially `numKeys`); falling off the loop sets the stop flag and returns
`None` (lines 472-473). -/
def genAux (oracle : Nat → AttemptResult) (numKeys startIdx : Nat) :
    Nat → Nat → Bool → Nat → GenResult
  | 0, idx, _, a => ⟨none, true, idx, a⟩
  | fuel + 1, idx, stop, a =>
    if stop then ⟨none, stop, idx, a⟩
    else
      match oracle a with
      | AttemptResult.ok t => ⟨some t, stop, idx, a + 1⟩
      | AttemptResult.err crit =>
        if crit then
          let sw := switch_to_next_api_key numKeys idx
          if sw.2.2 then
            if sw.1 = startIdx then ⟨none, true, sw.1, a + 1⟩
            else genAux oracle numKeys startIdx fuel sw.1 stop (a + 1)
          else ⟨none, sw.2.1, sw.1, a + 1⟩
        else ⟨none, stop, idx, a + 1⟩

/-- `_generate_with_retry` (main.py lines 453-473), entered with active index
`idx0` and stop flag `stop0`. -/
def generate_with_retry (oracle : Nat → AttemptResult) (numKeys idx0 : Nat)
    (stop0 : Bool) : GenResult :=
  genAux oracle numKeys idx0 numKeys idx0 stop0 0

theorem ensure_extends (required : List Text) (text : Text) (lang : Lang) :
    ∃ u, ensure_keywords_included required text lang = text ++ u := by
  by_cases h1 : required = []
  · exact ⟨[], by simp [ensure_keywords_included, h1]⟩
  · by_cases h2 : required.filter (fun kw => !hasSub (lower text) (lower kw)) = []
    · exact ⟨[], by simp [ensure_keywords_included, h1, h2]⟩
    · cases lang with
      | english =>
        refine ⟨" Also, talking about ".data ++
          joinSep ", ".data (required.filter (fun kw => !hasSub (lower text) (lower kw))) ++
          ".".data, ?_⟩
        simp [ensure_keywords_included, h1, h2]
      | korean =>
        refine ⟨" ".data ++
          joinSep " ".data (required.filter (fun kw => !hasSub (lower text) (lower kw))), ?_⟩
        simp [ensure_keywords_included, h1, h2]

theorem ensure_keeps_keywords (required : List Text) (text : Text) (lang : Lang)
    (kw : Text) (hkw : kw ∈ required) :
    hasSub (lower (ensure_keywords_included required text lang)) (lower kw) = true := by
  have hreq : ¬required = [] := by
    rintro rfl
    exact List.not_mem_nil kw hkw
  by_cases hin : hasSub (lower text) (lower kw) = true
  · rcases ensure_extends required text lang with ⟨u, hu⟩
    rw [hu, lower_append]
    exact hasSub_append_right _ _ _ hin
  · have hkwmiss : kw ∈ required.filter (fun k => !hasSub (lower text) (lower k)) :=
      List.mem_filter.mpr ⟨hkw, by simp [hin]⟩
    have hmne : ¬required.filter (fun k => !hasSub (lower text) (lower k)) = [] :=
      List.ne_nil_of_mem hkwmiss
    cases lang with
    | english =>
      rcases joinSep_mem_parts ", ".data _ kw hkwmiss with ⟨a, b, hab⟩
      have heq : ensure_keywords_included required text Lang.english =
          text ++ " Also, talking about ".data ++
            joinSep ", ".data (required.filter (fun k => !hasSub (lower text) (lower k))) ++
            ".".data := by
        simp [ensure_keywords_included, hreq, hmne]
      rw [heq, hab]
      exact hasSub_of_parts _ _ (lower (text ++ " Also, talking about ".data ++ a))
        (lower (b ++ ".".data)) (by simp [lower, List.append_assoc])
    | korean =>
      rcases joinSep_mem_parts " ".data _ kw hkwmiss with ⟨a, b, hab⟩
      have heq : ensure_keywords_included required text Lang.korean =
          text ++ " ".data ++
            joinSep " ".data (required.filter (fun k => !hasSub (lower text) (lower k))) := by
        simp [ensure_keywords_included, hreq, hmne]
      rw [heq, hab]
      exact hasSub_of_parts _ _ (lower (text ++ " ".data ++ a)) (lower b)
        (by simp [lower, List.append_assoc])

theorem generate_ai_response_eq (required : List Text) (t tweet : Text) (ht : ¬t = []) :
    generate_ai_response required (some t) tweet =
      some (ensure_keywords_included required
        (if detect_language tweet = Lang.korean then clean_text t else pyStrip t)
        (detect_language tweet)) := by
  simp [generate_ai_response, ht]

theorem generate_quote_text_eq (required : List Text) (t tweet : Text) (ht : ¬t = []) :
    generate_quote_text required (some t) tweet =
      some (ensure_keywords_included required
        (if detect_language tweet = Lang.korean then clean_text t else pyStrip t)
        (detect_language tweet)) := by
  simp [generate_quote_text, ht]

/-- C1: for every keyword set `required` and every non-null response composed
by `generate_ai_response` or `generate_quote_text`, every element of
`required` is a case-insensitive substring of the result, even when the
backend reply (`backend`) ignores the keyword instruction — missing keywords
are deterministically appended by `ensure_keywords_included`. -/
theorem generated_responses_contain_keywords :
    ∀ (required : List Text) (backend : Option Text) (tweet r : Text),
      (generate_ai_response required backend tweet = some r →
        ∀ kw ∈ required, hasSub (lower r) (lower kw) = true) ∧
      (generate_quote_text required backend tweet = some r →
        ∀ kw ∈ required, hasSub (lower r) (lower kw) = true) := by
  intro required backend tweet r
  constructor
  · intro h kw hkw
    cases backend with
    | none => simp [generate_ai_response] at h
    | some t =>
      by_cases ht : t = []
      · simp [generate_ai_response, ht] at h
      · rw [generate_ai_response_eq required t tweet ht] at h
        have hr := Option.some.inj h
        rw [← hr]
        exact ensure_keeps_keywords required _ _ kw hkw
  · intro h kw hkw
    cases backend with
    | none => simp [generate_quote_text] at h
    | some t =>
      by_cases ht : t = []
      · simp [generate_quote_text, ht] at h
      · rw [generate_quote_text_eq required t tweet ht] at h
        have hr := Option.some.inj h
        rw [← hr]
        exact ensure_keeps_keywords required _ _ kw hkw

/-- C1 witness: concrete run where the backend reply `"xyz"` ignores the
required keyword `"abc"`; the composed reply still contains it. -/
theorem generated_responses_contain_keywords_witness :
    hasSub (lower "xyz Also, talking about abc.".data) (lower "abc".data) = true := by
  have h := (generated_responses_contain_keywords ["abc".data] (some "xyz".data)
    "hello".data "xyz Also, talking about abc.".data).1
  exact h (by decide) "abc".data (List.mem_singleton.mpr rfl)

theorem mem_pyStrip {t : Text} {c : Char} (h : c ∈ pyStrip t) : c ∈ t := by
  unfold pyStrip at h
  rw [List.mem_reverse] at h
  have h2 := (List.dropWhile_suffix isSpaceChar).subset h
  rw [List.mem_reverse] at h2
  exact (List.dropWhile_suffix isSpaceChar).subset h2

theorem mem_dots {c : Char} (h : c ∈ "...".data) : c = '.' := by
  have : "...".data = ['.', '.', '.'] := rfl
  rw [this] at h
  rcases List.mem_cons.mp h with h1 | h2
  · exact h1
  · rcases List.mem_cons.mp h2 with h3 | h4
    · exact h3
    · exact List.mem_singleton.mp h4

theorem clean_text_supported (t : Text) : ∀ c ∈ clean_text t, supportedChar c = true := by
  intro c hc
  by_cases h1 : t = []
  · rw [clean_text, if_pos h1] at hc
    rw [mem_dots hc]
    decide
  · by_cases h2 : pyStrip (t.filter supportedChar) = []
    · have : clean_text t = "...".data := by simp [clean_text, h1, h2]
      rw [this] at hc
      rw [mem_dots hc]
      decide
    · have : clean_text t = pyStrip (t.filter supportedChar) := by simp [clean_text, h1, h2]
      rw [this] at hc
      exact (List.mem_filter.mp (mem_pyStrip hc)).2

theorem clean_text_ne_nil (t : Text) : clean_text t ≠ [] := by
  by_cases h1 : t = []
  · simp [clean_text, h1]
  · by_cases h2 : pyStrip (t.filter supportedChar) = []
    · simp [clean_text, h1, h2]
    · simp [clean_text, h1, h2]

theorem ensure_korean_chars (required : List Text) (text : Text) (c : Char)
    (hc : c ∈ ensure_keywords_included required text Lang.korean) :
    c ∈ text ∨ c = ' ' ∨ ∃ kw ∈ required, c ∈ kw := by
  by_cases h1 : required = []
  · rw [ensure_keywords_included, if_pos h1] at hc
    exact Or.inl hc
  · by_cases h2 : required.filter (fun kw => !hasSub (lower text) (lower kw)) = []
    · have : ensure_keywords_included required text Lang.korean = text := by
        simp [ensure_keywords_included, h1, h2]
      rw [this] at hc
      exact Or.inl hc
    · have heq : ensure_keywords_included required text Lang.korean =
          text ++ " ".data ++
            joinSep " ".data (required.filter (fun kw => !hasSub (lower text) (lower kw))) := by
        simp [ensure_keywords_included, h1, h2]
      rw [heq] at hc
      rcases List.mem_append.mp hc with hc1 | hcj
      · rcases List.mem_append.mp hc1 with hct | hcs
        · exact Or.inl hct
        · exact Or.inr (Or.inl (List.mem_singleton.mp hcs))
      · rcases mem_joinSep_sub " ".data _ c hcj with hcs | ⟨x, hx, hcx⟩
        · exact Or.inr (Or.inl (List.mem_singleton.mp hcs))
        · exact Or.inr (Or.inr ⟨x, List.mem_of_mem_filter hx, hcx⟩)

/-- C4 counterexample: the required keyword `"中"` lies outside the supported
charset (ASCII + Hangul syllables).  With backend reply `"안녕"` for the
Korean tweet `"안녕하세요"`, composition appends the keyword after
sanitization, so the non-null result contains an unsupported character —
refuting "every character lies inside the supported charset". -/
theorem compose_charset_counterexample :
    generate_ai_response ["中".data] (some "안녕".data) "안녕하세요".data =
      some "안녕 中".data ∧
    ("안녕 中".data).all supportedChar = false := by
  constructor
  · decide
  · decide

/-- C4 amended: composition never returns a partially valid result in the
following sense — for the default language (Korean), a non-null result always
contains every required keyword (case-insensitively) and is non-empty, and,
provided every required keyword itself lies inside the supported charset
(ASCII plus the Hangul-syllables block), every character of the result lies
inside that charset; the minimal placeholder `"..."` is substituted by
`clean_text` whenever sanitization strips everything. -/
theorem compose_valid_amended :
    (∀ (required : List Text) (backend : Option Text) (tweet r : Text),
      detect_language tweet = Lang.korean →
      (∀ kw ∈ required, ∀ c ∈ kw, supportedChar c = true) →
      generate_ai_response required backend tweet = some r →
      (∀ kw ∈ required, hasSub (lower r) (lower kw) = true) ∧
        (∀ c ∈ r, supportedChar c = true) ∧ r ≠ []) ∧
    (∀ t : Text, t = [] ∨ pyStrip (t.filter supportedChar) = [] →
      clean_text t = "...".data) := by
  constructor
  · intro required backend tweet r hlang hkws h
    cases backend with
    | none => simp [generate_ai_response] at h
    | some t =>
      by_cases ht : t = []
      · simp [generate_ai_response, ht] at h
      · rw [generate_ai_response_eq required t tweet ht, hlang] at h
        rw [if_pos rfl] at h
        have hr := Option.some.inj h
        rw [← hr]
        refine ⟨fun kw hkw => ensure_keeps_keywords required _ _ kw hkw, ?_, ?_⟩
        · intro c hc
          rcases ensure_korean_chars required (clean_text t) c hc with hc1 | hc2 | ⟨kw, hkw, hckw⟩
          · exact clean_text_supported t c hc1
          · rw [hc2]; decide
          · exact hkws kw hkw c hckw
        · rcases ensure_extends required (clean_text t) Lang.korean with ⟨u, hu⟩
          rw [hu]
          intro hnil
          exact clean_text_ne_nil t (List.append_eq_nil.mp hnil).1
  · intro t ht
    rcases ht with rfl | h2
    · rfl
    · by_cases h1 : t = []
      · simp [clean_text, h1]
      · simp [clean_text, h1, h2]

/-- C4 witness: concrete Korean run with an in-charset keyword `"안"` missing
from the backend reply `"네"`; the composed result `"네 안"` satisfies all
three conclusions, and `"中国"` sanitizes to the placeholder. -/
theorem compose_valid_amended_witness :
    (hasSub (lower "네 안".data) (lower "안".data) = true ∧
      ("네 안".data).all supportedChar = true ∧ "네 안".data ≠ []) ∧
    clean_text "中国".data = "...".data := by
  constructor
  · have h := compose_valid_amended.1 ["안".data] (some "네".data) "안녕하세요".data
      "네 안".data (by decide) (by decide) (by decide)
    refine ⟨h.1 "안".data (List.mem_singleton.mpr rfl), ?_, h.2.2⟩
    rw [List.all_eq_true]
    intro c hc
    exact h.2.1 c hc
  · exact compose_valid_amended.2 "中国".data (Or.inr (by decide))

/-- C2 counterexample: a 301-element set whose most-recently-added id is `300`
can be enumerated by `list(...)` with `300` first (Python sets are unordered);
truncation keeps the last 300 enumeration entries, evicting the newest id. -/
theorem truncate_newest_can_be_evicted :
    (300 :: List.range 300).Nodup ∧
    truncate_processed (300 :: List.range 300) = List.range 300 ∧
    300 ∉ List.range 300 := by
  refine ⟨?_, ?_, ?_⟩
  · rw [List.nodup_cons]
    exact ⟨by simp [List.mem_range], List.nodup_range 300⟩
  · have hlen : (300 :: List.range 300).length = 301 := by simp
    rw [truncate_processed, if_pos (by rw [hlen]; omega), hlen]
    rfl
  · simp [List.mem_range]

/-- C2 amended: after the end-of-cycle truncation the retained set holds at
most 300 ids (exactly 300 whenever truncation fires), and the retained ids
are a suffix of the set's enumeration order; because Python sets are
unordered, which ids survive depends on that arbitrary enumeration, so the
most-recently-added id is not guaranteed to be retained. -/
theorem truncate_bound_amended :
    ∀ enumeration : List TweetId,
      (truncate_processed enumeration).length ≤ 300 ∧
      truncate_processed enumeration <:+ enumeration ∧
      (300 < enumeration.length → (truncate_processed enumeration).length = 300) := by
  intro l
  unfold truncate_processed
  by_cases h : 300 < l.length
  · rw [if_pos h]
    refine ⟨?_, List.drop_suffix _ _, fun _ => ?_⟩
    · rw [List.length_drop]; omega
    · rw [List.length_drop]; omega
  · rw [if_neg h]
    exact ⟨by omega, List.suffix_refl l, fun hc => absurd hc h⟩

/-- C2 amended witness: a 301-id enumeration is truncated to exactly 300. -/
theorem truncate_bound_amended_witness :
    (truncate_processed (List.range 301)).length ≤ 300 ∧
    (truncate_processed (List.range 301)).length = 300 := by
  have h := truncate_bound_amended (List.range 301)
  exact ⟨h.1, h.2.2 (by simp)⟩

theorem genAux_attempts_le (oracle : Nat → AttemptResult) (numKeys startIdx : Nat) :
    ∀ (fuel idx : Nat) (stop : Bool) (a : Nat),
      (genAux oracle numKeys startIdx fuel idx stop a).attempts ≤ a + fuel := by
  intro fuel
  induction fuel with
  | zero =>
    intro idx stop a
    simp [genAux]
  | succ n ih =>
    intro idx stop a
    cases stop with
    | true =>
      have hval : genAux oracle numKeys startIdx (n + 1) idx true a = ⟨none, true, idx, a⟩ := by
        simp [genAux]
      rw [hval]
      show a ≤ a + (n + 1)
      omega
    | false =>
      cases ho : oracle a with
      | ok t =>
        have hval : genAux oracle numKeys startIdx (n + 1) idx false a =
            ⟨some t, false, idx, a + 1⟩ := by
          simp [genAux, ho]
        rw [hval]
        show a + 1 ≤ a + (n + 1)
        omega
      | err crit =>
        cases crit with
        | false =>
          have hval : genAux oracle numKeys startIdx (n + 1) idx false a =
              ⟨none, false, idx, a + 1⟩ := by
            simp [genAux, ho]
          rw [hval]
          show a + 1 ≤ a + (n + 1)
          omega
        | true =>
          by_cases hsw : (switch_to_next_api_key numKeys idx).2.2 = true
          · by_cases heq : (switch_to_next_api_key numKeys idx).1 = startIdx
            · have hval : genAux oracle numKeys startIdx (n + 1) idx false a =
                  ⟨none, true, (switch_to_next_api_key numKeys idx).1, a + 1⟩ := by
                simp [genAux, ho, hsw, heq]
              rw [hval]
              show a + 1 ≤ a + (n + 1)
              omega
            · have hstep : genAux oracle numKeys startIdx (n + 1) idx false a =
                  genAux oracle numKeys startIdx n (switch_to_next_api_key numKeys idx).1
                    false (a + 1) := by
                simp [genAux, ho, hsw, heq]
              rw [hstep]
              have hih := ih (switch_to_next_api_key numKeys idx).1 false (a + 1)
              omega
          · have hval : genAux oracle numKeys startIdx (n + 1) idx false a =
                ⟨none, (switch_to_next_api_key numKeys idx).2.1,
                  (switch_to_next_api_key numKeys idx).1, a + 1⟩ := by
              simp [genAux, ho, hsw]
            rw [hval]
            show a + 1 ≤ a + (n + 1)
            omega

/-- C3: for every credential pool and every single call, `_generate_with_retry`
performs at most `len(credentials)` backend generation attempts — the
`for _ in range(len(keys))` loop bounds the retry sequence, so it always
terminates. -/
theorem generate_with_retry_attempts_bounded :
    ∀ (oracle : Nat → AttemptResult) (numKeys idx0 : Nat) (stop0 : Bool),
      (generate_with_retry oracle numKeys idx0 stop0).attempts ≤ numKeys := by
  intro oracle numKeys idx0 stop0
  have h := genAux_attempts_le oracle numKeys idx0 numKeys idx0 stop0 0
  simpa [generate_with_retry] using h

theorem detect_language_eq (text : Text) (h0 : ¬text = []) :
    detect_language text =
      (if koreanCount text + englishCount text = 0 then Lang.korean
       else if 3 * (koreanCount text + englishCount text) < 10 * koreanCount text then
         Lang.korean
       else if 7 * (koreanCount text + englishCount text) < 10 * englishCount text then
         Lang.english
       else if englishCount text ≤ koreanCount text then Lang.korean
       else Lang.english) := by
  simp [detect_language, h0]

/-- C5: `detect_language` is total (always one of exactly two languages) and
follows the ordered decision rule: empty or no-signal text → Korean (the
default); Korean ratio > 0.3 (i.e. `10*k > 3*(k+e)`) → Korean; English ratio
> 0.7 (i.e. `10*e > 7*(k+e)`) → English; otherwise majority wins with ties
resolved toward Korean. -/
theorem detect_language_decision_rule :
    ∀ text : Text,
      (detect_language text = Lang.korean ∨ detect_language text = Lang.english) ∧
      (text = [] → detect_language text = Lang.korean) ∧
      (text ≠ [] → koreanCount text + englishCount text = 0 →
        detect_language text = Lang.korean) ∧
      (text ≠ [] →
        3 * (koreanCount text + englishCount text) < 10 * koreanCount text →
        detect_language text = Lang.korean) ∧
      (text ≠ [] →
        ¬3 * (koreanCount text + englishCount text) < 10 * koreanCount text →
        7 * (koreanCount text + englishCount text) < 10 * englishCount text →
        detect_language text = Lang.english) ∧
      (text ≠ [] →
        ¬3 * (koreanCount text + englishCount text) < 10 * koreanCount text →
        ¬7 * (koreanCount text + englishCount text) < 10 * englishCount text →
        englishCount text ≤ koreanCount text → detect_language text = Lang.korean) ∧
      (text ≠ [] →
        ¬3 * (koreanCount text + englishCount text) < 10 * koreanCount text →
        ¬7 * (koreanCount text + englishCount text) < 10 * englishCount text →
        koreanCount text < englishCount text → detect_language text = Lang.english) := by
  intro text
  refine ⟨?_, ?_, ?_, ?_, ?_, ?_, ?_⟩
  · cases h : detect_language text with
    | korean => exact Or.inl rfl
    | english => exact Or.inr rfl
  · intro h0
    simp [detect_language, h0]
  · intro h0 htot
    rw [detect_language_eq text h0, if_pos htot]
  · intro h0 hA
    rw [detect_language_eq text h0, if_neg (by omega), if_pos hA]
  · intro h0 hA hB
    rw [detect_language_eq text h0, if_neg (by omega), if_neg hA, if_pos hB]
  · intro h0 hA hB hle
    rw [detect_language_eq text h0]
    rcases Nat.eq_zero_or_pos (koreanCount text + englishCount text) with htot | htot
    · rw [if_pos htot]
    · rw [if_neg (by omega), if_neg hA, if_neg hB, if_pos hle]
  · intro h0 hA hB hlt
    rw [detect_language_eq text h0, if_neg (by omega), if_neg hA, if_neg hB,
      if_neg (by omega)]

/-- C5 witness: `"hi"` is non-empty, fails the Korean-ratio test and passes
the English-ratio test, so detection yields English. -/
theorem detect_language_decision_rule_witness :
    detect_language "hi".data = Lang.english := by
  have h := (detect_language_decision_rule "hi".data).2.2.2.2.1
  exact h (by decide) (by decide) (by decide)

/-- C6 counterexample: the item's id is readable (`some 0`) but its text is
not (`None`).  The reply attempt terminates with `PREP_FAILED` — but the id
IS recorded into the processed set (main.py line 687, "Add to processed to
avoid retrying a failed tweet"), refuting "the item's id is not recorded in
the ProcessedSet, leaving it eligible for re-fetch". -/
theorem prep_failed_recorded_counterexample :
    reply_to_tweet [] false none false none (some 0) none false = Outcome.PREP_FAILED ∧
    (processItem [] false none false [] (some 0) none
        ⟨ActionKind.reply, some 0, none, false, none, none, false⟩).processed = [0] := by
  constructor
  · rfl
  · rfl

/-- C6 amended: if the item's id cannot be read, the monitor skips the item
without attempting any action or recording anything (so it stays eligible for
re-fetch); if the id is readable but the text cannot be read, the reply
attempt terminates with `PREP_FAILED` and the id IS added to the ProcessedSet,
so the item is not re-fetched. -/
theorem fetch_failure_handling_amended :
    ∀ (required : List Text) (searchMode : Bool) (currentKw : Option Text) (botStop : Bool)
      (processed : List TweetId) (ttext : Option Text) (env : ItemEnv) (tweetId : TweetId),
      processItem required searchMode currentKw botStop processed none ttext env =
        ⟨processed, false, false⟩ ∧
      (tweetId ∉ processed →
        reply_to_tweet required searchMode currentKw botStop env.replyBackend env.replyTid
            none env.replyPostOk = Outcome.PREP_FAILED ∧
        (processItem required searchMode currentKw botStop processed (some tweetId) none
            env).processed = processed ++ [tweetId]) := by
  intro required searchMode currentKw botStop processed ttext env tweetId
  constructor
  · rfl
  · intro hmem
    constructor
    · cases henv : env.replyTid with
      | none => rfl
      | some x => rfl
    · show (if tweetId ∈ processed then (⟨processed, false, false⟩ : ItemResult)
          else if firstActionOk required searchMode currentKw botStop none env then
            ⟨processed ++ [tweetId], true, true⟩
          else ⟨processed ++ [tweetId], true, false⟩).processed = processed ++ [tweetId]
      rw [if_neg hmem]
      by_cases hok : firstActionOk required searchMode currentKw botStop none env = true
      · rw [if_pos hok]
      · rw [if_neg hok]

/-- C6 amended witness: concrete instance of both conjuncts. -/
theorem fetch_failure_handling_amended_witness :
    processItem [] false none false [] none (some "x".data)
        ⟨ActionKind.reply, none, none, false, none, none, false⟩ =
      ⟨[], false, false⟩ ∧
    (processItem [] false none false [] (some 5) none
        ⟨ActionKind.reply, none, none, false, none, none, false⟩).processed = [] ++ [5] := by
  have h := fetch_failure_handling_amended [] false none false [] (some "x".data)
    ⟨ActionKind.reply, none, none, false, none, none, false⟩ 5
  exact ⟨h.1, (h.2 (List.not_mem_nil 5)).2⟩

/-- C7: with a single-credential pool whose credential fails with a critical
error, `_generate_with_retry` returns `None` and the bot's stop flag becomes
true (the single-key branch of `switch_to_next_api_key` is terminal). -/
theorem single_key_critical_failure_stops :
    ∀ (oracle : Nat → AttemptResult) (idx0 : Nat),
      oracle 0 = AttemptResult.err true →
      (generate_with_retry oracle 1 idx0 false).text = none ∧
      (generate_with_retry oracle 1 idx0 false).stop = true := by
  intro oracle idx0 h
  have hval : generate_with_retry oracle 1 idx0 false = ⟨none, true, idx0, 1⟩ := by
    simp [generate_with_retry, genAux, h, switch_to_next_api_key]
  rw [hval]
  exact ⟨rfl, rfl⟩

/-- C7 witness: the constant critically-failing oracle with one credential. -/
theorem single_key_critical_failure_stops_witness :
    (generate_with_retry (fun _ => AttemptResult.err true) 1 0 false).text = none ∧
    (generate_with_retry (fun _ => AttemptResult.err true) 1 0 false).stop = true :=
  single_key_critical_failure_stops (fun _ => AttemptResult.err true) 0 rfl

theorem rotateIdx_lt (n idx : Nat) (h : idx < n) : rotateIdx n idx < n := by
  unfold rotateIdx switch_to_next_api_key
  by_cases h1 : n ≤ 1
  · rw [if_pos h1]
    exact h
  · rw [if_neg h1]
    exact Nat.mod_lt _ (by omega)

theorem rotateIdx_iterate (n : Nat) (h2 : 2 ≤ n) :
    ∀ (k idx : Nat), idx < n → (rotateIdx n)^[k] idx = (idx + k) % n := by
  intro k
  induction k with
  | zero =>
    intro idx h
    simp [Nat.mod_eq_of_lt h]
  | succ m ih =>
    intro idx h
    rw [Function.iterate_succ_apply', ih idx h]
    unfold rotateIdx switch_to_next_api_key
    rw [if_neg (by omega : ¬n ≤ 1)]
    show ((idx + m) % n + 1) % n = (idx + (m + 1)) % n
    calc ((idx + m) % n + 1) % n
        = ((idx + m) % n + 1 % n) % n := by
          rw [Nat.mod_eq_of_lt (show (1 : Nat) < n by omega)]
      _ = (idx + m + 1) % n := (Nat.add_mod _ _ _).symm
      _ = (idx + (m + 1)) % n := by rw [Nat.add_assoc]

/-- C8: credential rotation is cyclic and index-preserving over a full cycle —
from any valid start index, `len(credentials)` rotations return the active
index to the start, and each rotation keeps the active index in
`[0, len(credentials))`. -/
theorem rotation_cyclic_and_valid :
    ∀ (numKeys idx : Nat), idx < numKeys →
      (rotateIdx numKeys)^[numKeys] idx = idx ∧ rotateIdx numKeys idx < numKeys := by
  intro n idx h
  refine ⟨?_, rotateIdx_lt n idx h⟩
  by_cases h2 : 2 ≤ n
  · rw [rotateIdx_iterate n h2 n idx h, Nat.add_mod_right, Nat.mod_eq_of_lt h]
  · have hn : n = 1 := by omega
    subst hn
    have hidx : idx = 0 := by omega
    subst hidx
    rfl

/-- C8 witness: a three-credential pool starting at index 1. -/
theorem rotation_cyclic_and_valid_witness :
    (rotateIdx 3)^[3] 1 = 1 ∧ rotateIdx 3 1 < 3 :=
  rotation_cyclic_and_valid 3 1 (by omega)

/-- C9: when the first (primary) action does not succeed (`first_action_success`
is false, covering `POST_FAILED` as well as `PREP_FAILED` replies and failed
quotes), the secondary action is never attempted, the item's id is appended to
the ProcessedSet exactly once, and a later encounter of the same id attempts
nothing and changes nothing — the failure is not retried. -/
theorem primary_failure_skips_secondary :
    ∀ (required : List Text) (searchMode : Bool) (currentKw : Option Text) (botStop : Bool)
      (processed : List TweetId) (tweetId : TweetId) (ttext : Option Text) (env : ItemEnv),
      tweetId ∉ processed →
      firstActionOk required searchMode currentKw botStop ttext env = false →
      (processItem required searchMode currentKw botStop processed (some tweetId) ttext
          env).secondaryAttempted = false ∧
      (processItem required searchMode currentKw botStop processed (some tweetId) ttext
          env).processed = processed ++ [tweetId] ∧
      (processItem required searchMode currentKw botStop processed (some tweetId) ttext
          env).processed.count tweetId = 1 ∧
      (∀ (ttext2 : Option Text) (env2 : ItemEnv),
        processItem required searchMode currentKw botStop (processed ++ [tweetId])
          (some tweetId) ttext2 env2 = ⟨processed ++ [tweetId], false, false⟩) := by
  intro required searchMode currentKw botStop processed tweetId ttext env hmem hok
  have hres : processItem required searchMode currentKw botStop processed (some tweetId)
      ttext env = ⟨processed ++ [tweetId], true, false⟩ := by
    show (if tweetId ∈ processed then (⟨processed, false, false⟩ : ItemResult)
        else if firstActionOk required searchMode currentKw botStop ttext env then
          ⟨processed ++ [tweetId], true, true⟩
        else ⟨processed ++ [tweetId], true, false⟩) = ⟨processed ++ [tweetId], true, false⟩
    rw [if_neg hmem, hok]
    rfl
  rw [hres]
  have hmem2 : tweetId ∈ processed ++ [tweetId] :=
    List.mem_append.mpr (Or.inr (List.mem_singleton.mpr rfl))
  refine ⟨rfl, rfl, ?_, ?_⟩
  · show (processed ++ [tweetId]).count tweetId = 1
    rw [List.count_append, List.count_eq_zero.mpr hmem]
    simp
  · intro ttext2 env2
    show (if tweetId ∈ processed ++ [tweetId] then
          (⟨processed ++ [tweetId], false, false⟩ : ItemResult)
        else if firstActionOk required searchMode currentKw botStop ttext2 env2 then
          ⟨(processed ++ [tweetId]) ++ [tweetId], true, true⟩
        else ⟨(processed ++ [tweetId]) ++ [tweetId], true, false⟩) =
      ⟨processed ++ [tweetId], false, false⟩
    rw [if_pos hmem2]

/-- C9 witness: a reply-first item whose reply fails (`PREP_FAILED`, as the
backend returns `None`), instantiated concretely. -/
theorem primary_failure_skips_secondary_witness :
    (processItem [] false none false [] (some 7) (some "hi".data)
        ⟨ActionKind.reply, some 1, none, false, none, none, false⟩).secondaryAttempted =
      false ∧
    (processItem [] false none false [] (some 7) (some "hi".data)
        ⟨ActionKind.reply, some 1, none, false, none, none, false⟩).processed = [] ++ [7] := by
  have h := primary_failure_skips_secondary [] false none false [] 7 (some "hi".data)
    ⟨ActionKind.reply, some 1, none, false, none, none, false⟩ (List.not_mem_nil 7)
    (by decide)
  exact ⟨h.1, h.2.1⟩

/-- C10: `contains_keyword` returns `False` whenever the tweet text or the
filter keyword is empty or `None`; in particular an empty filter keyword makes
the check reject every item — even though the empty string is mathematically a
substring of every text (`hasSub t [] = true`). -/
theorem contains_keyword_empty_cases :
    (∀ k : Option Text, contains_keyword none k = false) ∧
    (∀ t : Option Text, contains_keyword t none = false) ∧
    (∀ t : Text, contains_keyword (some t) (some []) = false) ∧
    (∀ k : Text, contains_keyword (some []) (some k) = false) ∧
    (∀ t : Text, hasSub (lower t) [] = true) := by
  refine ⟨?_, ?_, ?_, ?_, ?_⟩
  · intro k
    cases k with
    | none => rfl
    | some k => rfl
  · intro t
    cases t with
    | none => rfl
    | some t => rfl
  · intro t
    by_cases h : t = [] <;> simp [contains_keyword, h]
  · intro k
    rfl
  · intro t
    exact hasSub_nil (lower t)
